import Mathlib

/-!
Formal model of two components of a TypeScript design-pattern collection:

* the Composite tree (`src/patterns/composite.ts`): an `Organ` hierarchy
  with `SimpleOrgan` leaves and `CompoundOrgan` containers, offering
  `getInformation`, `getRevenue`, `add` and `remove`;
* the memoizing Proxy (`FileDownloader` / `FileDownloaderProxy`): a cache
  wrapper that stores the result of a heavy `download` per path.

Each definition is a direct translation of the corresponding TypeScript.
JavaScript specifics that matter are modelled explicitly:

* `Array.prototype.indexOf` returns `-1` when the element is absent
  (`jsIndexOf`), and `Array.prototype.splice(start, 1)` clamps a negative
  `start` to `length + start` (but not below `0`), so `splice(-1, 1)`
  deletes the LAST element of a non-empty array (`jsSpliceRemoveOne`);
* object property update and lookup on a plain `{}` object keep insertion
  order and overwrite in place (`jsSetProp`, `jsGetProp`);
* a method that returns no value returns `undefined`, modelled as `none`;
* `Math.floor(Math.random() * 10000)` is an integer in `[0, 9999]`
  (for every IEEE double `x` with `0 <= x < 1`, `x * 10000` rounds to a
  double strictly below `10000`), modelled by a draw stream
  `sigma : Nat -> Nat` read modulo `10000`.
-/

/-! ### JavaScript array primitives used by `CompoundOrgan.add` / `remove`

The children array of a container holds object references and
`indexOf` compares with strict equality `===`, which on objects is
reference identity.  We model the element type as an arbitrary type with
decidable equality; concrete instances use `Nat` as the reference type. -/

/-- JavaScript `Array.prototype.indexOf`: index of the first strictly-equal
element, or `-1` when the element does not occur. -/
def jsIndexOf [DecidableEq α] : List α → α → Int
  | [], _ => -1
  | x :: xs, a =>
      if x = a then 0
      else
        let r := jsIndexOf xs a
        if r = -1 then -1 else r + 1

/-- The actual starting position computed by `Array.prototype.splice`:
a negative `start` counts from the end and is clamped at `0`, a `start`
beyond the end is clamped at `length`. -/
def jsSpliceStart (len : Nat) (start : Int) : Nat :=
  (if start < 0 then max ((len : Int) + start) 0 else min start (len : Int)).toNat

/-- JavaScript `Array.prototype.splice(start, 1)`: at most one element, the
one at the clamped position, is removed. -/
def jsSpliceRemoveOne (xs : List α) (start : Int) : List α :=
  xs.take (jsSpliceStart xs.length start) ++ xs.drop (jsSpliceStart xs.length start + 1)

/-- `CompoundOrgan.add`: `this.children.push(organ)`. -/
def CompoundOrgan.add [DecidableEq α] (children : List α) (organ : α) : List α :=
  children ++ [organ]

/-- `CompoundOrgan.remove`:
`const index = this.children.indexOf(organ); this.children.splice(index, 1);`. -/
def CompoundOrgan.remove [DecidableEq α] (children : List α) (organ : α) : List α :=
  jsSpliceRemoveOne children (jsIndexOf children organ)

/-! ### The Composite tree

`Organ` is the component type of `src/patterns/composite.ts`: a
`SimpleOrgan` leaf holds a name, a `CompoundOrgan` container holds a name
and an ordered list of children.

Methods are modelled as functions that return the receiver object along
with their result, so that the absence of mutation by the getters is a
provable statement rather than a modelling assumption.  The receiver
returned by a compound getter is rebuilt from the (possibly updated)
children visited by the `forEach` loop. -/

inductive Organ where
  | simpleOrgan (name : String)
  | compoundOrgan (name : String) (children : List Organ)
deriving Repr

/-- One draw of `Math.floor(Math.random() * 10000)`: the draws of a run are
modelled as a stream `σ` consumed at increasing indices, each value reduced
modulo `10000` because `Math.random()` lies in `[0, 1)`, which makes the
floored product an integer in `[0, 9999]`. -/
def randomDraw (σ : Nat → Nat) (i : Nat) : Nat := σ i % 10000

mutual

/-- `Organ.getInformation`: the leaf returns its one-line description, the
container starts with a header line and appends the information of every
child in order (`forEach` with string accumulation).  The first component
is the receiver after the call. -/
def getInformation : Organ → Organ × String
  | .simpleOrgan name => (.simpleOrgan name, "- My name is " ++ name ++ "\n")
  | .compoundOrgan name children =>
      let r := getInfoFold children
        ("- This is " ++ name ++ " organ." ++ " It contains " ++
          Nat.repr children.length ++ " members \n")
      (.compoundOrgan name r.1, r.2)

/-- The `forEach` loop of `CompoundOrgan.getInformation`: fold over the
children, appending each information string to the accumulator; returns the
visited children and the final accumulator. -/
def getInfoFold : List Organ → String → List Organ × String
  | [], output => ([], output)
  | organ :: rest, output =>
      let r := getInformation organ
      let q := getInfoFold rest (output ++ r.2)
      (r.1 :: q.1, q.2)

end

mutual

/-- `Organ.getRevenue`: the leaf returns
`Math.floor(Math.random() * 10000) + 1000` and consumes one draw of the
stream; the container sums the revenues of its children (`forEach` with a
numeric accumulator starting at `0`).  Result components: receiver after
the call, returned number, next unused draw index. -/
def getRevenue (σ : Nat → Nat) : Organ → Nat → Organ × Nat × Nat
  | .simpleOrgan name, i => (.simpleOrgan name, randomDraw σ i + 1000, i + 1)
  | .compoundOrgan name children, i =>
      let r := getRevenueFold σ children 0 i
      (.compoundOrgan name r.1, r.2)

/-- The `forEach` loop of `CompoundOrgan.getRevenue`: fold over the
children, adding each revenue to the accumulator while threading the draw
stream index. -/
def getRevenueFold (σ : Nat → Nat) : List Organ → Nat → Nat → List Organ × Nat × Nat
  | [], output, i => ([], output, i)
  | organ :: rest, output, i =>
      let r := getRevenue σ organ i
      let q := getRevenueFold σ rest (output + r.2.1) r.2.2
      (r.1 :: q.1, q.2)

end

/-- Specification-side expression for claim C4: the list of values returned
by calling `getRevenue` on each direct child in order, each call starting
at the draw index the previous call left off. -/
def childRevenues (σ : Nat → Nat) : List Organ → Nat → List Nat
  | [], _ => []
  | organ :: rest, i =>
      (getRevenue σ organ i).2.1 :: childRevenues σ rest (getRevenue σ organ i).2.2

/-- Number of newline characters in a string.  Every description produced
by `getInformation` ends with a newline, so this is its line count. -/
def newlineCount (s : String) : Nat := s.data.count '\n'

/-! ### The memoizing Proxy

`FileDownloader.download` only logs `Downloading <path>...` and returns
`undefined`; the log line makes every invocation observable, so the model
records the path of each invocation in `calls`.  The proxy keeps a plain
object `cachedFiles` mapping paths to stored results, modelled as an
insertion-ordered association list of own properties.

The cache is probed as `this.cachedFiles.hasOwnProperty(path)` and written
as `this.cachedFiles[path] = result` with a caller-supplied string key, so
two pieces of JavaScript property semantics are part of the model:

* the probe is a method call that resolves the name `hasOwnProperty` on
  the object first; every value this program ever stores is `undefined`,
  so once a download cached the key `hasOwnProperty` the resolved value is
  `undefined`, which is not callable, and the call throws a `TypeError`
  (`callHasOwnProperty` returns an error);
* assigning to the key `__proto__` on a plain object invokes the
  inherited prototype accessor, which silently ignores a non-object value
  such as `undefined`, so no own property is created and the key is never
  cached (`jsSetProp` leaves the object unchanged). -/

/-- The real subject.  `calls` records, in order, the path argument of each
`download` invocation (each prints one `Downloading ...` console line). -/
structure FileDownloader where
  calls : List String
deriving Repr, DecidableEq

/-- `FileDownloader.download(path)`: logs and returns `undefined` (`none`). -/
def FileDownloader.download (self : FileDownloader) (path : String) :
    FileDownloader × Option Unit :=
  ({ calls := self.calls ++ [path] }, none)

/-- The `TypeError` thrown when a property call resolves to a value that is
not a function. -/
inductive JsTypeError where
  | notAFunction
deriving Repr, DecidableEq

instance [DecidableEq ε] [DecidableEq α] : DecidableEq (Except ε α) := fun x y =>
  match x, y with
  | .ok a, .ok b =>
      if h : a = b then .isTrue (by rw [h])
      else .isFalse (fun hc => h (Except.ok.inj hc))
  | .error e, .error f =>
      if h : e = f then .isTrue (by rw [h])
      else .isFalse (fun hc => h (Except.error.inj hc))
  | .ok _, .error _ => .isFalse (fun hc => Except.noConfusion hc)
  | .error _, .ok _ => .isFalse (fun hc => Except.noConfusion hc)

/-- The own-property test that the inherited
`Object.prototype.hasOwnProperty` performs on a plain object with the
given own entries. -/
def jsHasOwn (obj : List (String × α)) (key : String) : Bool :=
  obj.any (fun p => p.1 == key)

/-- The method call `obj.hasOwnProperty(key)`: the property name
`hasOwnProperty` is resolved on the object first.  An own entry under that
name shadows the inherited method; since every value this program stores
is `undefined`, a shadowed call is `undefined(key)` and throws a
`TypeError`.  Without a shadowing entry the inherited method answers the
own-property test for `key`. -/
def callHasOwnProperty (obj : List (String × Option Unit)) (key : String) :
    Except JsTypeError Bool :=
  if jsHasOwn obj "hasOwnProperty" then .error .notAFunction
  else .ok (jsHasOwn obj key)

/-- Property read `obj[key]`: the stored value, or `undefined` when the key
is absent (all stored values here are themselves `Option Unit`). -/
def jsGetProp (obj : List (String × Option Unit)) (key : String) : Option Unit :=
  match obj.find? (fun p => p.1 == key) with
  | some p => p.2
  | none => none

/-- Property write `obj[key] = v` on a plain object, in the runtimes
TypeScript targets.  Assigning to the key `__proto__` invokes the
inherited prototype accessor, which silently ignores a non-object value
(every value this program writes is `undefined`), creating no own entry.
Any other key is overwritten in place when present, otherwise appended
(insertion order preserved). -/
def jsSetProp (obj : List (String × Option Unit)) (key : String)
    (v : Option Unit) : List (String × Option Unit) :=
  if key == "__proto__" then obj
  else if obj.any (fun p => p.1 == key) then
    obj.map (fun p => if p.1 == key then (p.1, v) else p)
  else
    obj ++ [(key, v)]

/-- The proxy state: the wrapped downloader and the cache object. -/
structure FileDownloaderProxy where
  downloader : FileDownloader
  cachedFiles : List (String × Option Unit)
deriving Repr, DecidableEq

/-- `new FileDownloaderProxy()`: fresh downloader, empty cache object. -/
def newFileDownloaderProxy : FileDownloaderProxy :=
  { downloader := { calls := [] }, cachedFiles := [] }

/-- `FileDownloaderProxy.download(path)`: the cache probe
`this.cachedFiles.hasOwnProperty(path)` may throw a `TypeError` (once an
entry shadows the method); on a hit the stored value is returned without
touching the downloader; on a miss the heavy `download` is invoked, its
result assigned to `this.cachedFiles[path]`, and the function body falls
through, returning `undefined`. -/
def FileDownloaderProxy.download (self : FileDownloaderProxy) (path : String) :
    Except JsTypeError (FileDownloaderProxy × Option Unit) :=
  match callHasOwnProperty self.cachedFiles path with
  | .error e => .error e
  | .ok true => .ok (self, jsGetProp self.cachedFiles path)
  | .ok false =>
      let r := self.downloader.download path
      .ok ({ downloader := r.1, cachedFiles := jsSetProp self.cachedFiles path r.2 },
        none)

/-- Run a sequence of `download` calls on a proxy instance.  A thrown
`TypeError` aborts the remaining calls; the result keeps the state at that
moment (its console output is already visible) together with the error,
`none` when the run completed normally. -/
def runDownloads : FileDownloaderProxy → List String → FileDownloaderProxy × Option JsTypeError
  | s, [] => (s, none)
  | s, path :: rest =>
      match s.download path with
      | .ok r => runDownloads r.1 rest
      | .error e => (s, some e)

/-- A download key that collides with no special property of a plain
object: neither the method name `hasOwnProperty` (whose shadowing makes
later cache probes throw) nor the prototype accessor `__proto__` (whose
assignment stores nothing). -/
def regularKey (k : String) : Prop :=
  k ≠ "hasOwnProperty" ∧ k ≠ "__proto__"

instance (k : String) : Decidable (regularKey k) :=
  inferInstanceAs (Decidable (k ≠ "hasOwnProperty" ∧ k ≠ "__proto__"))

/-- Invariant tying the cache to the record of heavy downloads on runs
that use only regular keys: a key is cached exactly when the heavy
operation was invoked with it, the heavy operation was never invoked twice
with the same key, and only regular keys were ever requested. -/
def ProxyInv (s : FileDownloaderProxy) : Prop :=
  (∀ k, jsHasOwn s.cachedFiles k = true ↔ k ∈ s.downloader.calls)
    ∧ s.downloader.calls.Nodup
    ∧ (∀ k ∈ s.downloader.calls, regularKey k)

/-! ### Helper lemmas -/

theorem jsIndexOf_of_not_mem [DecidableEq α] {xs : List α} {a : α}
    (h : a ∉ xs) : jsIndexOf xs a = -1 := by
  induction xs with
  | nil => rfl
  | cons x xs ih =>
      have hx : ¬x = a := fun hxa => h (hxa ▸ List.mem_cons_self x xs)
      have hxs : a ∉ xs := fun hm => h (List.mem_cons_of_mem x hm)
      simp [jsIndexOf, hx, ih hxs]

theorem jsIndexOf_append_singleton_of_not_mem [DecidableEq α] {xs : List α}
    {a : α} (h : a ∉ xs) : jsIndexOf (xs ++ [a]) a = (xs.length : Int) := by
  induction xs with
  | nil => simp [jsIndexOf]
  | cons x xs ih =>
      have hx : ¬x = a := fun hxa => h (hxa ▸ List.mem_cons_self x xs)
      have hxs : a ∉ xs := fun hm => h (List.mem_cons_of_mem x hm)
      have hpos : ¬jsIndexOf (xs ++ [a]) a = -1 := by
        rw [ih hxs]; omega
      simp [jsIndexOf, hx, ih hxs, hpos]

theorem jsSpliceStart_neg_one (len : Nat) : jsSpliceStart len (-1) = len - 1 := by
  unfold jsSpliceStart
  rw [if_pos (by omega)]
  omega

theorem jsSpliceStart_self (len : Nat) (extra : Nat) :
    jsSpliceStart (len + extra) (len : Int) = len := by
  unfold jsSpliceStart
  rw [if_neg (by omega)]
  omega

theorem jsSpliceRemoveOne_last (xs : List α) :
    jsSpliceRemoveOne xs (-1) = xs.dropLast := by
  unfold jsSpliceRemoveOne
  rw [jsSpliceStart_neg_one, List.dropLast_eq_take]
  have hdrop : xs.drop (xs.length - 1 + 1) = [] := by
    apply List.drop_eq_nil_of_le
    omega
  rw [hdrop, List.append_nil]

theorem jsSpliceRemoveOne_at_length (xs : List α) (a : α) :
    jsSpliceRemoveOne (xs ++ [a]) (xs.length : Int) = xs := by
  unfold jsSpliceRemoveOne
  have hlen : (xs ++ [a]).length = xs.length + 1 := by simp
  rw [hlen, jsSpliceStart_self]
  have hdrop : (xs ++ [a]).drop (xs.length + 1) = [] := by
    apply List.drop_eq_nil_of_le
    simp
  rw [hdrop, List.append_nil, List.take_left]

theorem newlineCount_append (s t : String) :
    newlineCount (s ++ t) = newlineCount s + newlineCount t := by
  simp [newlineCount, String.data_append, List.count_append]

theorem digitChar_ne_newline (n : Nat) : Nat.digitChar n ≠ '\n' := by
  by_cases hlt : n < 16
  · interval_cases n <;> decide
  · have hstar : Nat.digitChar n = '*' := by
      unfold Nat.digitChar
      repeat rw [if_neg (by omega)]
    rw [hstar]
    decide

theorem toDigitsCore_chars (fuel : Nat) :
    ∀ (n : Nat) (acc : List Char), (∀ c ∈ acc, c ≠ '\n') →
      ∀ c ∈ Nat.toDigitsCore 10 fuel n acc, c ≠ '\n' := by
  induction fuel with
  | zero =>
      intro n acc hacc
      simpa [Nat.toDigitsCore] using hacc
  | succ fuel ih =>
      intro n acc hacc
      have hcons : ∀ c ∈ ((n % 10).digitChar :: acc), c ≠ '\n' := by
        intro c hc
        rcases List.mem_cons.mp hc with h | h
        · exact h ▸ digitChar_ne_newline _
        · exact hacc c h
      unfold Nat.toDigitsCore
      show ∀ c ∈ (if n / 10 = 0 then (n % 10).digitChar :: acc
        else Nat.toDigitsCore 10 fuel (n / 10) ((n % 10).digitChar :: acc)), c ≠ '\n'
      split
      · exact hcons
      · exact ih _ _ hcons

theorem newlineCount_natRepr (n : Nat) : newlineCount (Nat.repr n) = 0 := by
  have hchars := toDigitsCore_chars (n + 1) n [] (by simp)
  unfold Nat.repr Nat.toDigits
  exact List.count_eq_zero.mpr (fun hm => hchars '\n' hm rfl)

theorem newlineCount_getInfoFold (cs : List Organ) :
    ∀ acc : String, newlineCount (getInfoFold cs acc).2 =
      newlineCount acc + (cs.map (fun o => newlineCount (getInformation o).2)).sum := by
  induction cs with
  | nil => intro acc; simp [getInfoFold]
  | cons o rest ih =>
      intro acc
      simp only [getInfoFold, ih, newlineCount_append, List.map_cons, List.sum_cons]
      omega

theorem newlineCount_info_header (name : String) (len : Nat)
    (h : ('\n' : Char) ∉ name.data) :
    newlineCount ("- This is " ++ name ++ " organ." ++ " It contains " ++
      Nat.repr len ++ " members \n") = 1 := by
  have h1 : newlineCount name = 0 := List.count_eq_zero.mpr h
  simp only [newlineCount_append, h1, newlineCount_natRepr]
  decide

theorem getRevenueFold_value (σ : Nat → Nat) (cs : List Organ) :
    ∀ (acc i : Nat), (getRevenueFold σ cs acc i).2.1 =
      acc + (childRevenues σ cs i).sum := by
  induction cs with
  | nil => intro acc i; simp [getRevenueFold, childRevenues]
  | cons o rest ih =>
      intro acc i
      simp only [getRevenueFold, childRevenues, ih, List.sum_cons]
      omega

theorem organ_strong_ind (motive : Organ → Prop)
    (hs : ∀ name, motive (.simpleOrgan name))
    (hc : ∀ name children, (∀ o ∈ children, motive o) →
      motive (.compoundOrgan name children)) :
    ∀ o, motive o
  | .simpleOrgan name => hs name
  | .compoundOrgan name children =>
      hc name children (fun o ho =>
        have : sizeOf o < 1 + sizeOf name + sizeOf children := by
          have := List.sizeOf_lt_of_mem ho
          omega
        organ_strong_ind motive hs hc o)

theorem getInfoFold_fst (cs : List Organ)
    (h : ∀ o ∈ cs, (getInformation o).1 = o) :
    ∀ acc : String, (getInfoFold cs acc).1 = cs := by
  induction cs with
  | nil => intro acc; rfl
  | cons o rest ih =>
      intro acc
      simp only [getInfoFold]
      rw [h o (List.mem_cons_self o rest),
        ih (fun x hx => h x (List.mem_cons_of_mem o hx))]

theorem getRevenueFold_fst (σ : Nat → Nat) (cs : List Organ)
    (h : ∀ o ∈ cs, ∀ i, (getRevenue σ o i).1 = o) :
    ∀ (acc i : Nat), (getRevenueFold σ cs acc i).1 = cs := by
  induction cs with
  | nil => intro acc i; rfl
  | cons o rest ih =>
      intro acc i
      simp only [getRevenueFold]
      rw [h o (List.mem_cons_self o rest),
        ih (fun x hx => h x (List.mem_cons_of_mem o hx))]

theorem getters_fix_organ (o : Organ) :
    (getInformation o).1 = o ∧ ∀ (σ : Nat → Nat) (i : Nat), (getRevenue σ o i).1 = o := by
  induction o using organ_strong_ind with
  | hs name => exact ⟨rfl, fun σ i => rfl⟩
  | hc name children ih =>
      constructor
      · simp only [getInformation]
        rw [getInfoFold_fst children (fun x hx => (ih x hx).1)]
      · intro σ i
        simp only [getRevenue]
        rw [getRevenueFold_fst σ children (fun x hx => (ih x hx).2 σ)]

theorem jsSetProp_of_not_has (obj : List (String × Option Unit)) (key : String)
    (v : Option Unit) (hproto : key ≠ "__proto__")
    (h : jsHasOwn obj key = false) : jsSetProp obj key v = obj ++ [(key, v)] := by
  unfold jsHasOwn at h
  unfold jsSetProp
  rw [if_neg (by simp [hproto]), if_neg (by simp [h])]

theorem jsGetProp_append_self (obj : List (String × Option Unit)) (key : String)
    (v : Option Unit) (h : jsHasOwn obj key = false) :
    jsGetProp (obj ++ [(key, v)]) key = v := by
  induction obj with
  | nil => simp [jsGetProp]
  | cons p rest ih =>
      unfold jsHasOwn at h
      simp only [List.any_cons, Bool.or_eq_false_iff] at h
      unfold jsGetProp
      simp only [List.cons_append, List.find?_cons, h.1]
      exact ih (by unfold jsHasOwn; exact h.2)

theorem jsHasOwn_append_singleton (obj : List (String × α)) (key k : String)
    (v : α) :
    jsHasOwn (obj ++ [(key, v)]) k = (jsHasOwn obj k || (key == k)) := by
  simp [jsHasOwn, List.any_append]

theorem download_shadowed (s : FileDownloaderProxy) (path : String)
    (hshadow : jsHasOwn s.cachedFiles "hasOwnProperty" = true) :
    s.download path = .error .notAFunction := by
  unfold FileDownloaderProxy.download callHasOwnProperty
  simp [hshadow]

theorem download_hit (s : FileDownloaderProxy) (path : String)
    (hshadow : jsHasOwn s.cachedFiles "hasOwnProperty" = false)
    (h : jsHasOwn s.cachedFiles path = true) :
    s.download path = .ok (s, jsGetProp s.cachedFiles path) := by
  unfold FileDownloaderProxy.download callHasOwnProperty
  simp [hshadow, h]

theorem download_miss (s : FileDownloaderProxy) (path : String)
    (hshadow : jsHasOwn s.cachedFiles "hasOwnProperty" = false)
    (hproto : path ≠ "__proto__")
    (h : jsHasOwn s.cachedFiles path = false) :
    s.download path =
      .ok ({ downloader := { calls := s.downloader.calls ++ [path] },
             cachedFiles := s.cachedFiles ++ [(path, none)] }, none) := by
  unfold FileDownloaderProxy.download callHasOwnProperty FileDownloader.download
  simp [hshadow, h, jsSetProp_of_not_has _ _ _ hproto h]

theorem download_miss_proto (s : FileDownloaderProxy)
    (hshadow : jsHasOwn s.cachedFiles "hasOwnProperty" = false)
    (h : jsHasOwn s.cachedFiles "__proto__" = false) :
    s.download "__proto__" =
      .ok ({ downloader := { calls := s.downloader.calls ++ ["__proto__"] },
             cachedFiles := s.cachedFiles }, none) := by
  unfold FileDownloaderProxy.download callHasOwnProperty FileDownloader.download
  simp [hshadow, h, jsSetProp]

theorem download_preserves_cached (s : FileDownloaderProxy) (p : String)
    (r : FileDownloaderProxy × Option Unit) (hd : s.download p = .ok r)
    (k : String) (hs : jsHasOwn s.cachedFiles k = true) :
    jsHasOwn r.1.cachedFiles k = true := by
  cases hsh : jsHasOwn s.cachedFiles "hasOwnProperty" with
  | true =>
      rw [download_shadowed s p hsh] at hd
      exact Except.noConfusion hd
  | false =>
      cases hc : jsHasOwn s.cachedFiles p with
      | true =>
          rw [download_hit s p hsh hc] at hd
          have hr := Except.ok.inj hd
          rw [← hr]
          exact hs
      | false =>
          by_cases hp : p = "__proto__"
          · subst hp
            rw [download_miss_proto s hsh hc] at hd
            have hr := Except.ok.inj hd
            rw [← hr]
            exact hs
          · rw [download_miss s p hsh hp hc] at hd
            have hr := Except.ok.inj hd
            rw [← hr]
            simp only [jsHasOwn_append_singleton, hs, Bool.true_or]

theorem proxyInv_new : ProxyInv newFileDownloaderProxy := by
  refine ⟨?_, ?_, ?_⟩
  · intro k
    simp [newFileDownloaderProxy, jsHasOwn]
  · simp [newFileDownloaderProxy]
  · simp [newFileDownloaderProxy]

theorem proxyInv_no_shadow (s : FileDownloaderProxy) (h : ProxyInv s) :
    jsHasOwn s.cachedFiles "hasOwnProperty" = false := by
  obtain ⟨hiff, _, hregs⟩ := h
  cases hval : jsHasOwn s.cachedFiles "hasOwnProperty" with
  | false => rfl
  | true => exact absurd rfl ((hregs "hasOwnProperty" ((hiff "hasOwnProperty").mp hval)).1)

theorem runDownloads_spec (ks : List String) (hks : ∀ p ∈ ks, regularKey p) :
    ∀ s : FileDownloaderProxy, ProxyInv s →
      ProxyInv (runDownloads s ks).1
      ∧ (runDownloads s ks).2 = none
      ∧ (∀ k, k ∈ (runDownloads s ks).1.downloader.calls ↔
          k ∈ s.downloader.calls ∨ k ∈ ks)
      ∧ (∀ k, jsHasOwn (runDownloads s ks).1.cachedFiles k = true ↔
          jsHasOwn s.cachedFiles k = true ∨ k ∈ ks) := by
  induction ks with
  | nil =>
      intro s hs
      exact ⟨hs, rfl, fun k => by simp [runDownloads], fun k => by simp [runDownloads]⟩
  | cons path rest ih =>
      intro s hs
      have hreg : regularKey path := hks path (List.mem_cons_self path rest)
      have hrest : ∀ p ∈ rest, regularKey p :=
        fun p hp => hks p (List.mem_cons_of_mem path hp)
      have hshadow := proxyInv_no_shadow s hs
      obtain ⟨hiff, hnd, hregs⟩ := hs
      cases hc : jsHasOwn s.cachedFiles path with
      | true =>
          have hrun : runDownloads s (path :: rest) = runDownloads s rest := by
            simp only [runDownloads, download_hit s path hshadow hc]
          obtain ⟨hinv, hnoerr, hcalls, hcached⟩ := ih hrest s ⟨hiff, hnd, hregs⟩
          rw [hrun]
          have hpmem : path ∈ s.downloader.calls := (hiff path).mp hc
          refine ⟨hinv, hnoerr, ?_, ?_⟩
          · intro k
            rw [hcalls k]
            simp only [List.mem_cons]
            constructor
            · rintro (hk | hk)
              · exact Or.inl hk
              · exact Or.inr (Or.inr hk)
            · rintro (hk | rfl | hk)
              · exact Or.inl hk
              · exact Or.inl hpmem
              · exact Or.inr hk
          · intro k
            rw [hcached k]
            simp only [List.mem_cons]
            constructor
            · rintro (hk | hk)
              · exact Or.inl hk
              · exact Or.inr (Or.inr hk)
            · rintro (hk | rfl | hk)
              · exact Or.inl hk
              · exact Or.inl hc
              · exact Or.inr hk
      | false =>
          have hrun : runDownloads s (path :: rest)
              = runDownloads ({ downloader := { calls := s.downloader.calls ++ [path] },
                                cachedFiles := s.cachedFiles ++ [(path, none)] }) rest := by
            simp only [runDownloads, download_miss s path hshadow hreg.2 hc]
          have hpath : path ∉ s.downloader.calls := fun hm => by
            have := (hiff path).mpr hm
            rw [hc] at this
            cases this
          have hinv' : ProxyInv { downloader := { calls := s.downloader.calls ++ [path] },
                                  cachedFiles := s.cachedFiles ++ [(path, none)] } := by
            refine ⟨?_, ?_, ?_⟩
            · intro k
              simp only [jsHasOwn_append_singleton, Bool.or_eq_true, beq_iff_eq,
                List.mem_append, List.mem_singleton, hiff k]
              constructor
              · rintro (hk | rfl)
                · exact Or.inl hk
                · exact Or.inr rfl
              · rintro (hk | rfl)
                · exact Or.inl hk
                · exact Or.inr rfl
            · simp [List.nodup_append, hnd, hpath]
            · intro q hq
              rcases List.mem_append.mp hq with hq | hq
              · exact hregs q hq
              · rw [List.mem_singleton.mp hq]
                exact hreg
          obtain ⟨hinv, hnoerr, hcalls, hcached⟩ := ih hrest _ hinv'
          rw [hrun]
          refine ⟨hinv, hnoerr, ?_, ?_⟩
          · intro k
            rw [hcalls k]
            simp only [List.mem_append, List.mem_singleton, List.mem_cons]
            tauto
          · intro k
            rw [hcached k]
            simp only [jsHasOwn_append_singleton, Bool.or_eq_true, beq_iff_eq,
              List.mem_cons]
            constructor
            · rintro (⟨hk | rfl⟩ | hk)
              · exact Or.inl hk
              · exact Or.inr (Or.inl rfl)
              · exact Or.inr (Or.inr hk)
            · rintro (hk | rfl | hk)
              · exact Or.inl (Or.inl hk)
              · exact Or.inl (Or.inr rfl)
              · exact Or.inr hk

/-! ### Claims -/

/-- Claim C1 (code bug): the specification says removing a node that is
not present leaves the children sequence unchanged, but in the code
`indexOf` yields `-1` for an absent reference and `splice(-1, 1)` deletes
the element at position `length - 1`, so `remove` of an absent node drops
the LAST child of every non-empty container (only on an empty container
is it a no-op, because `splice` clamps the position at `0`). -/
theorem claim_C1_remove_absent_node_drops_last_child
    [DecidableEq α] (xs : List α) (n : α) (h : n ∉ xs) :
    CompoundOrgan.remove xs n = xs.dropLast := by
  unfold CompoundOrgan.remove
  rw [jsIndexOf_of_not_mem h, jsSpliceRemoveOne_last]

/-- Concrete run for claim C1: removing the absent reference `2` from the
children `[0, 1]` deletes the last child `1`, leaving `[0]` instead of the
unchanged `[0, 1]` the specification promises. -/
theorem claim_C1_witness :
    (2 : Nat) ∉ [0, 1]
      ∧ CompoundOrgan.remove [0, 1] (2 : Nat) = [0] :=
  ⟨by decide,
    (claim_C1_remove_absent_node_drops_last_child [0, 1] (2 : Nat)
      (by decide)).trans (by decide)⟩

/-- Counterexample to claim C2 as stated: for the key `__proto__` the
assignment in the miss branch stores nothing, so the key never becomes
cached and the heavy operation runs on EVERY call: two downloads of
`__proto__` on a fresh proxy invoke it twice, not at most once. -/
theorem claim_C2_counterexample :
    (runDownloads newFileDownloaderProxy ["__proto__", "__proto__"]).1.downloader.calls
        = ["__proto__", "__proto__"]
    ∧ ¬((runDownloads newFileDownloaderProxy
        ["__proto__", "__proto__"]).1.downloader.calls.count "__proto__" ≤ 1) := by
  decide

/-- Claim C2 (amended): across any sequence of `download` calls with
regular keys (neither `hasOwnProperty` nor `__proto__`) on a fresh proxy,
the heavy `FileDownloader.download` runs at most once per key; the first
call with a fresh regular key invokes it exactly once more, caches the
result and returns `undefined`, and any call with an already-requested key
leaves the proxy state unchanged and returns the cached entry.  (As
stated, over all keys, the claim fails: `__proto__` is never cached, so
the heavy operation runs on every call with it, and once `hasOwnProperty`
has been cached every later call throws a `TypeError` instead of
returning the cached result.) -/
theorem claim_C2_heavy_download_at_most_once (pre : List String) (k : String)
    (hpre : ∀ p ∈ pre, regularKey p) :
    (runDownloads newFileDownloaderProxy pre).1.downloader.calls.count k ≤ 1
    ∧ (k ∉ pre → regularKey k →
        (runDownloads newFileDownloaderProxy pre).1.download k
          = .ok ({ downloader := { calls :=
                       (runDownloads newFileDownloaderProxy pre).1.downloader.calls ++ [k] },
                   cachedFiles := (runDownloads newFileDownloaderProxy pre).1.cachedFiles
                       ++ [(k, none)] }, none))
    ∧ (k ∈ pre →
        (runDownloads newFileDownloaderProxy pre).1.download k
          = .ok ((runDownloads newFileDownloaderProxy pre).1,
              jsGetProp (runDownloads newFileDownloaderProxy pre).1.cachedFiles k)) := by
  obtain ⟨hinv, hnoerr, hcalls, hcached⟩ :=
    runDownloads_spec pre hpre newFileDownloaderProxy proxyInv_new
  have hshadow := proxyInv_no_shadow _ hinv
  have hbase : jsHasOwn newFileDownloaderProxy.cachedFiles k = false := rfl
  have hiff : jsHasOwn (runDownloads newFileDownloaderProxy pre).1.cachedFiles k
      = true ↔ k ∈ pre := by
    rw [hcached k, hbase]
    simp
  refine ⟨List.nodup_iff_count_le_one.mp hinv.2.1 k, ?_, ?_⟩
  · intro hk hkreg
    have hc : jsHasOwn
        (runDownloads newFileDownloaderProxy pre).1.cachedFiles k = false := by
      cases hval : jsHasOwn (runDownloads newFileDownloaderProxy pre).1.cachedFiles k with
      | false => rfl
      | true => exact absurd (hiff.mp hval) hk
    exact download_miss _ _ hshadow hkreg.2 hc
  · intro hk
    exact download_hit _ _ hshadow (hiff.mpr hk)

/-- Concrete run for claim C2 (amended): after downloading `a.jpg` and
`b.png`, the heavy operation ran at most once for `a.jpg`, and a repeated
download of `a.jpg` succeeds, changes nothing and returns the cache
entry. -/
theorem claim_C2_witness :
    (runDownloads newFileDownloaderProxy ["a.jpg", "b.png"]).1.downloader.calls.count "a.jpg" ≤ 1
    ∧ (runDownloads newFileDownloaderProxy ["a.jpg", "b.png"]).1.download "a.jpg"
        = .ok ((runDownloads newFileDownloaderProxy ["a.jpg", "b.png"]).1,
            jsGetProp (runDownloads newFileDownloaderProxy ["a.jpg", "b.png"]).1.cachedFiles "a.jpg") :=
  ⟨(claim_C2_heavy_download_at_most_once ["a.jpg", "b.png"] "a.jpg" (by decide)).1,
    (claim_C2_heavy_download_at_most_once ["a.jpg", "b.png"] "a.jpg" (by decide)).2.2
      (by decide)⟩

/-- Counterexample to claim C3 as stated: the claim includes containers
already holding duplicate references; with children `[1, 2]` (which
already contain the reference `1`), adding `1` and then removing `1`
yields `[2, 1]`, because `remove` deletes the FIRST occurrence, not the
one just appended. -/
theorem claim_C3_counterexample :
    CompoundOrgan.remove (CompoundOrgan.add [1, 2] (1 : Nat)) 1 ≠ [1, 2] := by
  decide

/-- Claim C3 (amended): when the node is not already among the children,
adding it and immediately removing it restores the child sequence exactly.
(As stated, with duplicates allowed, the claim is false: see the
counterexample.) -/
theorem claim_C3_add_remove_roundtrip [DecidableEq α] (xs : List α) (n : α)
    (h : n ∉ xs) :
    CompoundOrgan.remove (CompoundOrgan.add xs n) n = xs := by
  unfold CompoundOrgan.add CompoundOrgan.remove
  rw [jsIndexOf_append_singleton_of_not_mem h, jsSpliceRemoveOne_at_length]

/-- Concrete run for claim C3 (amended): adding the fresh reference `9` to
`[5, 7]` and removing it restores `[5, 7]`. -/
theorem claim_C3_witness :
    (9 : Nat) ∉ [5, 7]
      ∧ CompoundOrgan.remove (CompoundOrgan.add [5, 7] (9 : Nat)) 9 = [5, 7] :=
  ⟨by decide, claim_C3_add_remove_roundtrip [5, 7] 9 (by decide)⟩

/-- Claim C4: the revenue of a container equals the sum of the revenues
returned by its direct children, evaluated in order with the random draw
stream threaded from child to child. -/
theorem claim_C4_compound_revenue_is_children_sum (σ : Nat → Nat)
    (name : String) (cs : List Organ) (i : Nat) :
    (getRevenue σ (.compoundOrgan name cs) i).2.1 = (childRevenues σ cs i).sum := by
  simp only [getRevenue]
  rw [getRevenueFold_value σ cs]
  omega

/-- Counterexample to claim C5 as stated: for the key `__proto__` a cache
miss invokes the heavy operation, but the assignment
`cachedFiles["__proto__"] = undefined` goes to the inherited prototype
setter and stores nothing, so the cache stays empty and nothing is stored
under the key. -/
theorem claim_C5_counterexample :
    jsHasOwn newFileDownloaderProxy.cachedFiles "__proto__" = false
    ∧ newFileDownloaderProxy.download "__proto__"
        = .ok ({ downloader := { calls := ["__proto__"] }, cachedFiles := [] }, none)
    ∧ jsHasOwn ([] : List (String × Option Unit)) "__proto__" = false := by
  decide

/-- Claim C5 (amended): for every proxy instance whose cache does not
shadow `hasOwnProperty` (otherwise the probe throws a `TypeError`) and
every key other than `__proto__` that is not present in the cache,
`download` invokes the heavy operation with the key, stores the result of
that operation (here `undefined`) in the cache under the key, and returns
that same result to the caller.  (As stated, over all keys, the claim
fails for `__proto__`, whose store is a silent no-op: see the
counterexample.) -/
theorem claim_C5_cache_miss_downloads_stores_returns (s : FileDownloaderProxy)
    (path : String)
    (hshadow : jsHasOwn s.cachedFiles "hasOwnProperty" = false)
    (hproto : path ≠ "__proto__")
    (h : jsHasOwn s.cachedFiles path = false) :
    s.download path
      = .ok ({ downloader := { calls := s.downloader.calls ++ [path] },
               cachedFiles := s.cachedFiles ++ [(path, none)] },
          (s.downloader.download path).2)
    ∧ jsGetProp (s.cachedFiles ++ [(path, none)]) path
        = (s.downloader.download path).2 :=
  ⟨download_miss s path hshadow hproto h, jsGetProp_append_self _ _ _ h⟩

/-- Concrete run for claim C5 (amended): downloading `a.jpg` on a fresh
proxy invokes the heavy operation once, caches its (void) result and
returns it. -/
theorem claim_C5_witness :
    jsHasOwn newFileDownloaderProxy.cachedFiles "hasOwnProperty" = false
    ∧ jsHasOwn newFileDownloaderProxy.cachedFiles "a.jpg" = false
    ∧ newFileDownloaderProxy.download "a.jpg"
        = .ok ({ downloader := { calls := newFileDownloaderProxy.downloader.calls ++ ["a.jpg"] },
                 cachedFiles := newFileDownloaderProxy.cachedFiles ++ [("a.jpg", none)] },
            (newFileDownloaderProxy.downloader.download "a.jpg").2)
    ∧ jsGetProp (newFileDownloaderProxy.cachedFiles ++ [("a.jpg", none)]) "a.jpg"
        = (newFileDownloaderProxy.downloader.download "a.jpg").2 :=
  ⟨rfl, rfl,
    (claim_C5_cache_miss_downloads_stores_returns newFileDownloaderProxy "a.jpg"
      rfl (by decide) rfl).1,
    (claim_C5_cache_miss_downloads_stores_returns newFileDownloaderProxy "a.jpg"
      rfl (by decide) rfl).2⟩

/-- Claim C6: every call of `getRevenue` on a leaf returns an integer in
the closed range `[1000, 10999]`, whatever the random draw was. -/
theorem claim_C6_leaf_revenue_range (σ : Nat → Nat) (name : String) (i : Nat) :
    1000 ≤ (getRevenue σ (.simpleOrgan name) i).2.1
      ∧ (getRevenue σ (.simpleOrgan name) i).2.1 ≤ 10999 := by
  simp only [getRevenue, randomDraw]
  omega

/-- Counterexample to claim C7 as stated: the claim quantifies over every
container, but a container whose own name contains a newline produces a
multi-line header, so its line count exceeds 1 plus the children total;
here a childless container named with an embedded newline has 2 lines. -/
theorem claim_C7_counterexample :
    newlineCount (getInformation (.compoundOrgan "a\nb" [])).2
      ≠ 1 + (([] : List Organ).map (fun o => newlineCount (getInformation o).2)).sum := by
  decide

/-- Claim C7 (amended): for every container whose own name contains no
newline character, the number of lines of its description equals 1 (the
header) plus the sum of the line counts of the descriptions of its
children, in order.  (As stated, over all containers, the claim fails for
names containing a newline: see the counterexample.) -/
theorem claim_C7_container_line_count (name : String) (cs : List Organ)
    (h : ('\n' : Char) ∉ name.data) :
    newlineCount (getInformation (.compoundOrgan name cs)).2
      = 1 + (cs.map (fun o => newlineCount (getInformation o).2)).sum := by
  simp only [getInformation]
  rw [newlineCount_getInfoFold cs, newlineCount_info_header name cs.length h]

/-- Concrete run for claim C7 (amended): the container `Main` with one
leaf child has a 2-line description: 1 header line plus the 1-line leaf
description. -/
theorem claim_C7_witness :
    ('\n' : Char) ∉ "Main".data
    ∧ newlineCount (getInformation (.compoundOrgan "Main"
        [.simpleOrgan "Alex as Founder"])).2
      = 1 + ([Organ.simpleOrgan "Alex as Founder"].map
          (fun o => newlineCount (getInformation o).2)).sum :=
  ⟨by decide,
    claim_C7_container_line_count "Main" [.simpleOrgan "Alex as Founder"] (by decide)⟩

/-- Counterexample to claim C8 as stated: with the distinct keys
`hasOwnProperty` and `b.png`, the first download caches an entry that
shadows the inherited method, so the second call throws a `TypeError`
during the cache probe: the heavy operation ran once, one cache entry
exists, and the run aborted — not two invocations with two entries. -/
theorem claim_C8_counterexample :
    "hasOwnProperty" ≠ "b.png"
    ∧ runDownloads newFileDownloaderProxy ["hasOwnProperty", "b.png"]
        = ({ downloader := { calls := ["hasOwnProperty"] },
             cachedFiles := [("hasOwnProperty", none)] },
           some JsTypeError.notAFunction) := by
  decide

/-- Claim C8 (amended): starting from an empty cache, downloading two
distinct regular keys (neither `hasOwnProperty` nor `__proto__`) throws
nothing, invokes the heavy operation exactly twice, once per key, and
leaves two independent cache entries, one per key.  (As stated, over all
distinct keys, the claim fails: see the counterexample.) -/
theorem claim_C8_two_distinct_keys (k1 k2 : String) (h : k1 ≠ k2)
    (h1 : regularKey k1) (h2 : regularKey k2) :
    (runDownloads newFileDownloaderProxy [k1, k2]).2 = none
    ∧ (runDownloads newFileDownloaderProxy [k1, k2]).1.downloader.calls = [k1, k2]
    ∧ (runDownloads newFileDownloaderProxy [k1, k2]).1.cachedFiles
        = [(k1, none), (k2, none)] := by
  have hk12 : (k1 == k2) = false := by
    simp [h]
  have e1 : newFileDownloaderProxy.download k1
      = .ok ({ downloader := { calls := [k1] }, cachedFiles := [(k1, none)] }, none) := by
    have := download_miss newFileDownloaderProxy k1 rfl h1.2 rfl
    simpa [newFileDownloaderProxy] using this
  have e2 : ({ downloader := { calls := [k1] },
               cachedFiles := [(k1, none)] } : FileDownloaderProxy).download k2
      = .ok ({ downloader := { calls := [k1, k2] },
               cachedFiles := [(k1, none), (k2, none)] }, none) := by
    have := download_miss ({ downloader := { calls := [k1] },
                             cachedFiles := [(k1, none)] } : FileDownloaderProxy) k2
      (by simp [jsHasOwn, h1.1]) h2.2 (by simp [jsHasOwn, hk12])
    simpa using this
  simp [runDownloads, e1, e2]

/-- Concrete run for claim C8 (amended): downloading `a.jpg` then `b.png`
completes without error and records two heavy invocations and two cache
entries. -/
theorem claim_C8_witness :
    (runDownloads newFileDownloaderProxy ["a.jpg", "b.png"]).2 = none
    ∧ (runDownloads newFileDownloaderProxy ["a.jpg", "b.png"]).1.downloader.calls
        = ["a.jpg", "b.png"]
    ∧ (runDownloads newFileDownloaderProxy ["a.jpg", "b.png"]).1.cachedFiles
        = [("a.jpg", none), ("b.png", none)] :=
  claim_C8_two_distinct_keys "a.jpg" "b.png" (by decide) (by decide) (by decide)

/-- Counterexample to claim C9 as stated: the key `__proto__` is requested
on a fresh proxy yet never transitions to the cached state, because the
store in the miss branch goes to the inherited prototype setter and
creates no own entry. -/
theorem claim_C9_counterexample :
    ("__proto__" ∈ ["__proto__"])
    ∧ jsHasOwn (runDownloads newFileDownloaderProxy
        ["__proto__"]).1.cachedFiles "__proto__" = false := by
  decide

/-- Claim C9 (amended): per key the cache is a two-state system.  From a
fresh proxy running a sequence of regular keys (neither `hasOwnProperty`
nor `__proto__`), a key is cached afterwards exactly when the sequence
requested it (so the transition happens at the first request), and —
unconditionally — once cached a key stays cached under every further call
sequence: no operation evicts an entry, and a thrown `TypeError` leaves
the cache as it was.  (As stated, over all keys, the claim fails:
`__proto__` is requested but never becomes cached, see the
counterexample.) -/
theorem claim_C9_cached_is_terminal (ks : List String) (k : String)
    (hks : ∀ p ∈ ks, regularKey p) :
    (jsHasOwn (runDownloads newFileDownloaderProxy ks).1.cachedFiles k = true
        ↔ k ∈ ks)
    ∧ (∀ (s : FileDownloaderProxy) (more : List String),
        jsHasOwn s.cachedFiles k = true →
        jsHasOwn (runDownloads s more).1.cachedFiles k = true) := by
  constructor
  · obtain ⟨_, _, _, hcached⟩ :=
      runDownloads_spec ks hks newFileDownloaderProxy proxyInv_new
    rw [hcached k]
    have hbase : jsHasOwn newFileDownloaderProxy.cachedFiles k = false := rfl
    rw [hbase]
    simp
  · intro s more
    induction more generalizing s with
    | nil => exact fun hs => hs
    | cons p rest ih =>
        intro hs
        cases hd : s.download p with
        | error e =>
            simp only [runDownloads, hd]
            exact hs
        | ok r =>
            simp only [runDownloads, hd]
            exact ih r.1 (download_preserves_cached s p r hd k hs)

/-- Concrete run for claim C9 (amended): after downloading `a.jpg` the key
is cached, and it is still cached after further downloads of other
keys. -/
theorem claim_C9_witness :
    ("a.jpg" ∈ ["a.jpg"])
    ∧ jsHasOwn (runDownloads newFileDownloaderProxy ["a.jpg"]).1.cachedFiles "a.jpg" = true
    ∧ jsHasOwn (runDownloads (runDownloads newFileDownloaderProxy ["a.jpg"]).1
        ["b.png", "c.gif"]).1.cachedFiles "a.jpg" = true := by
  have h := claim_C9_cached_is_terminal ["a.jpg"] "a.jpg" (by decide)
  have h1 : jsHasOwn
      (runDownloads newFileDownloaderProxy ["a.jpg"]).1.cachedFiles "a.jpg" = true :=
    h.1.mpr (by decide)
  exact ⟨by decide, h1, h.2 _ ["b.png", "c.gif"] h1⟩

/-- Claim C10: `getInformation` and `getRevenue` leave the tree they are
called on unchanged: the receiver each getter returns is the original
organ, so every container keeps its child sequence (length, order and
elements) and every node keeps its name. -/
theorem claim_C10_getters_leave_tree_unchanged (o : Organ) (σ : Nat → Nat)
    (i : Nat) :
    (getInformation o).1 = o ∧ (getRevenue σ o i).1 = o :=
  ⟨(getters_fix_organ o).1, (getters_fix_organ o).2 σ i⟩
